import Mathlib

/-!
# Verification of the `tici` per-directory tmux session persistence tool

Shallow embedding of the tool's core: the session save-file codec
(`src/save.rs` serialization, `src/restore.rs` parsing), the restore
command trace (`src/restore.rs`), the save/snapshot pipeline
(`src/save.rs`), the session-identity computation (`src/session_info.rs`,
including SHA-256), and the front-end dispatch (`src/main.rs`).

Rust strings are embedded as `List Char`; machine integers (`u32`) as
`Nat` with explicit bounds where parsing overflow matters.  Child-process
interaction is embedded as a trace of typed commands plus an environment
record giving each query's stdout and exit status.
-/

namespace Tici

/-- Rust strings are modelled as lists of characters. -/
abbrev Chars := List Char

/-! ## Character-list utilities mirroring the Rust string operations used -/

/-- Split at every occurrence of `sep`, keeping empty pieces
(Rust `str::split(char)`).  Never returns `[]`. -/
def splitOnChar (sep : Char) : Chars → List Chars
  | [] => [[]]
  | c :: cs =>
    match splitOnChar sep cs with
    | [] => [[c]]
    | p :: ps => if c = sep then [] :: p :: ps else (c :: p) :: ps

/-- One trailing `'\r'` removed, if present. -/
def stripCR (l : Chars) : Chars := if l.getLast? = some '\r' then l.dropLast else l

/-- Walk the pieces between `'\n'`s: every piece but the last was
terminated by a `'\n'` and loses a directly preceding `'\r'` (the
`"\r\n"` line ending); the final, unterminated piece is kept verbatim,
or dropped when empty (optional final line ending). -/
def rustLinesAux : List Chars → List Chars
  | [] => []
  | [l] => if l = [] then [] else [l]
  | l :: ls => stripCR l :: rustLinesAux ls

/-- Rust `str::lines`: split at `'\n'`, treating `"\r\n"` as one line
ending, the final line ending optional. -/
def rustLines (s : Chars) : List Chars := rustLinesAux (splitOnChar '\n' s)

/-- The Unicode `White_Space` code points, by scalar value: U+0009..U+000D,
U+0020, U+0085, U+00A0, U+1680, U+2000..U+200A, U+2028, U+2029, U+202F,
U+205F, U+3000. -/
def rustWsNat (n : Nat) : Bool :=
  decide ((9 ≤ n ∧ n ≤ 13) ∨ n = 32 ∨ n = 133 ∨ n = 160 ∨ n = 5760
    ∨ (8192 ≤ n ∧ n ≤ 8202) ∨ n = 8232 ∨ n = 8233 ∨ n = 8239 ∨ n = 8287
    ∨ n = 12288)

/-- Rust `char::is_whitespace`: the Unicode `White_Space` property. -/
def rustIsWs (c : Char) : Bool := rustWsNat c.toNat

/-- One step of `splitWhitespace` accumulation: `acc` holds the current
token reversed. -/
def splitWsAux : Chars → Chars → List Chars
  | acc, [] => if acc = [] then [] else [acc.reverse]
  | acc, c :: cs =>
    if rustIsWs c then
      if acc = [] then splitWsAux [] cs else acc.reverse :: splitWsAux [] cs
    else splitWsAux (c :: acc) cs

/-- Rust `str::split_whitespace`: maximal non-whitespace tokens. -/
def splitWs (s : Chars) : List Chars := splitWsAux [] s

/-- Split at the first occurrence of `sep`
(Rust `str::split_once(char)`). -/
def splitOnceChar (sep : Char) : Chars → Option (Chars × Chars)
  | [] => none
  | c :: cs =>
    if c = sep then some ([], cs)
    else (splitOnceChar sep cs).map (fun p => (c :: p.1, p.2))

/-- Rust `str::splitn(n, ' ')`: at most `n` pieces, the last piece is the
unsplit remainder. -/
def splitnSp : Nat → Chars → List Chars
  | 0, _ => []
  | 1, s => [s]
  | n + 2, s =>
    match splitOnceChar ' ' s with
    | none => [s]
    | some (a, b) => a :: splitnSp (n + 1) b

/-- Fuel-driven loop for `str::trim_start_matches(pattern)`: repeatedly
strip the prefix `p` while it matches. -/
def stripRepGo (p : Chars) : Nat → Chars → Chars
  | 0, s => s
  | n + 1, s => if p.isPrefixOf s then stripRepGo p n (s.drop p.length) else s

/-- Rust `str::trim_start_matches(pat)` for a non-empty pattern:
repeatedly remove the leading occurrence of `p`.  Each removal drops at
least one character, so `s.length` steps of fuel reach the fixpoint. -/
def stripRep (p s : Chars) : Chars := stripRepGo p s.length s

/-- Rust `str::trim_start_matches(ch)`. -/
def stripCharsStart (ch : Char) (s : Chars) : Chars := s.dropWhile (· = ch)

/-- Rust `str::trim_end_matches(ch)`. -/
def stripCharsEnd (ch : Char) (s : Chars) : Chars :=
  (s.reverse.dropWhile (· = ch)).reverse

/-! ## Decimal numbers: Rust `format!("{}")` printing and `u32::parse` -/

/-- Decimal digit to character. -/
def digitCh (n : Nat) : Char := Char.ofNat (48 + n)

/-- Fuel-driven decimal printing accumulator. -/
def natCharsAux : Nat → Nat → Chars → Chars
  | 0, _, acc => acc
  | fuel + 1, n, acc =>
    if n < 10 then digitCh n :: acc
    else natCharsAux fuel (n / 10) (digitCh (n % 10) :: acc)

/-- Decimal representation of a natural number
(Rust `format!("{}", n)` for `u32`). -/
def natChars (n : Nat) : Chars := natCharsAux (n + 1) n []

/-- Value of a digit string read left to right. -/
def digitsToNat (s : Chars) : Nat := s.foldl (fun a c => a * 10 + (c.toNat - 48)) 0

/-- The `u32` maximum. -/
def u32Max : Nat := 4294967295

/-- Rust `str::parse::<u32>()`: optional leading `'+'`, then one or more
decimal digits, rejecting values above `u32::MAX`. -/
def parseU32 (s : Chars) : Option Nat :=
  let t := match s with
    | '+' :: rest => rest
    | _ => s
  if t = [] then none
  else if t.all Char.isDigit then
    let v := digitsToNat t
    if v ≤ u32Max then some v else none
  else none

/-! ## Data model (`src/models.rs`, `src/save.rs`, `src/restore.rs`)

`src/restore.rs`'s `Pane` additionally carries a `content : String` field
that the parser always sets to the empty string (`String::new()`); being
constant it is omitted here.  `history_size` is present in both
`src/save.rs` and `src/restore.rs` and is kept. -/

/-- A tmux pane as recorded in the save file. -/
structure Pane where
  index : Nat
  title : Chars
  current_path : Chars
  active : Bool
  current_command : Chars
  pid : Nat
  history_size : Nat
deriving DecidableEq, Repr

/-- A tmux window as recorded in the save file. -/
structure Window where
  session_name : Chars
  index : Nat
  name : Chars
  active : Bool
  layout : Chars
  panes : List Pane
deriving DecidableEq, Repr

/-! ## Serializer (`src/save.rs`, `save_tmux_session` content construction) -/

/-- The `"# Window: "` record tag. -/
def wTag : Chars := "# Window: ".data

/-- The `"# Pane: "` record tag. -/
def pTag : Chars := "# Pane: ".data

/-- `format!("# Window: {}:{} ({}) {} {}", ...)` from
`save_tmux_session` (the window record line, newline excluded). -/
def windowLineBody (w : Window) : Chars :=
  wTag ++ w.session_name ++ ':' :: natChars w.index
    ++ ' ' :: '(' :: w.name ++ ')' :: ' '
    :: (if w.active then '1' else '0') :: ' ' :: w.layout

/-- The pane fields as space-separated text (everything after the
`"# Pane: "` tag). -/
def serializePaneData (p : Pane) : Chars :=
  natChars p.index ++ ' ' :: (if p.active then '1' else '0') :: ' '
    :: p.title ++ ' ' :: p.current_path ++ ' ' :: p.current_command
    ++ ' ' :: natChars p.pid ++ ' ' :: natChars p.history_size

/-- `format!("# Pane: {} {} {} {} {} {} {}", ...)` from
`save_tmux_session` (the pane record line, newline excluded). -/
def paneLineBody (p : Pane) : Chars := pTag ++ serializePaneData p

/-- The save-file text written for one window: its header line followed
by one line per pane, each line `'\n'`-terminated. -/
def serializeWindow (w : Window) : Chars :=
  windowLineBody w ++ '\n' :: (w.panes.map (fun p => paneLineBody p ++ ['\n'])).flatten

/-- The whole save-file text (`content` in `save_tmux_session`). -/
def serializeSession (ws : List Window) : Chars :=
  (ws.map serializeWindow).flatten

/-- The list of (newline-free) lines the serializer emits for a session. -/
def serLines (ws : List Window) : List Chars :=
  (ws.map (fun w => windowLineBody w :: w.panes.map paneLineBody)).flatten

/-! ## Parser (`src/restore.rs`, `Window::from_line` and the line loop of
`restore_tmux_session`) -/

/-- `Window::from_line`: strip the repeated `"# Window: "` prefix, split
on whitespace, read `session:index`, `(name)`, active flag and layout.
A missing token or a failing index parse yields `none` (the record is
skipped by the caller). -/
def Window.from_line (line : Chars) : Option Window := do
  let line := stripRep wTag line
  let parts := splitWs line
  let session_index ← parts.get? 0
  let (session_name, indexStr) ← splitOnceChar ':' session_index
  let name0 ← parts.get? 1
  let name := stripCharsEnd ')' (stripCharsStart '(' name0)
  let activeStr ← parts.get? 2
  let layout ← parts.get? 3
  let index ← parseU32 indexStr
  pure { session_name, index, name, active := activeStr = ['1'], layout, panes := [] }

/-- Parsing of the text after `"# Pane: "` in `restore_tmux_session`:
`splitn(7, ' ')` must yield seven pieces; the structural pieces `pid`,
`history` and even `index` fall back to 0 on a failing numeric parse. -/
def parsePaneData (data : Chars) : Option Pane :=
  match splitnSp 7 data with
  | [i, a, t, p, c, pid, hist] =>
    some { index := (parseU32 i).getD 0, active := a = ['1'], title := t,
           current_path := p, current_command := c,
           pid := (parseU32 pid).getD 0, history_size := (parseU32 hist).getD 0 }
  | _ => none

/-- Flush helper: the window currently being accumulated, if any. -/
def optWindowList : Option Window → List Window
  | none => []
  | some w => [w]

/-- The pane step of the line loop: `window.panes.push(pane)` happens
only when a window is under construction and the record has all seven
pieces; otherwise the state is unchanged. -/
def addPane : Option Window → Option Pane → Option Window
  | some w, some p => some { w with panes := w.panes ++ [p] }
  | cur, _ => cur

/-- The line loop of `restore_tmux_session` (lines 63–117): a window line
flushes the window under construction and starts a new one (or none, when
`Window::from_line` fails, in which case following pane lines are
dropped); a pane line with seven pieces is appended to the window under
construction; every other line is skipped. -/
def parseLoop : List Chars → Option Window → List Window → List Window
  | [], cur, acc => acc ++ optWindowList cur
  | l :: ls, cur, acc =>
    if wTag.isPrefixOf l then
      parseLoop ls (Window.from_line l) (acc ++ optWindowList cur)
    else if pTag.isPrefixOf l then
      parseLoop ls (addPane cur (parsePaneData (l.drop pTag.length))) acc
    else parseLoop ls cur acc

/-- The windows parsed from a save file's text. -/
def parseContent (s : Chars) : List Window :=
  parseLoop (rustLines s) none []

/-! ## Restore (`src/restore.rs`, `restore_tmux_session`)

The tmux child processes issued by a restore are recorded as a trace of
typed commands.  The driver surface also has `list-windows` and
`kill-window` operations (used by `src/save.rs` and discussed by the
specification); they get constructors so that their absence from the
restore trace is expressible. -/

/-- A tmux CLI invocation.  Targets are the literal formatted strings
(`"{session}:{window}"`, `"{session}:{window}.{pane}"`). -/
inductive TmuxCmd where
  | newSessionDetached (session name : Chars)
  | splitWindow (target path : Chars)
  | selectLayout (target layout : Chars)
  | newWindow (target name : Chars)
  | selectPane (target : Chars)
  | selectWindow (target : Chars)
  | switchClient (session : Chars)
  | attachSession (session : Chars)
  | listWindows
  | killWindow (target : Chars)
deriving DecidableEq, Repr

/-- Errors surfaced by `restore_tmux_session` before any tmux call. -/
inductive RestoreError where
  /-- `"No saved session found for this directory"`. -/
  | noSavedSession
  /-- `"No windows found in saved session"`. -/
  | noWindowsFound
deriving DecidableEq, Repr

/-- The tmux commands issued for the windows after the first
(`restore_tmux_session`, the `windows.iter().skip(1)` loop): new-window,
split-window per extra pane, select-layout, then select-pane for each
pane whose active flag is set. -/
def restWindowCmds (sess : Chars) (w : Window) : List TmuxCmd :=
  let target := sess ++ ':' :: natChars w.index
  TmuxCmd.newWindow target w.name
    :: ((w.panes.drop 1).map (fun p => TmuxCmd.splitWindow target p.current_path))
    ++ [TmuxCmd.selectLayout target w.layout]
    ++ w.panes.filterMap (fun p =>
        if p.active then some (TmuxCmd.selectPane (target ++ '.' :: natChars p.index))
        else none)

/-- The full tmux command trace of a non-dry-run restore over the parsed
windows (`restore_tmux_session` after parsing): create a detached session
named after the first window's recorded session name, build the first
window's panes and layout, build the remaining windows, select the first
window marked active (if any), then switch or attach. -/
def restoreTrace (ws : List Window) (insideTmux : Bool) : List TmuxCmd :=
  match ws with
  | [] => []
  | fw :: rest =>
    let sess := fw.session_name
    TmuxCmd.newSessionDetached sess fw.name
      :: ((fw.panes.drop 1).map (fun p =>
            TmuxCmd.splitWindow (sess ++ ':' :: ['0']) p.current_path))
      ++ [TmuxCmd.selectLayout (sess ++ ':' :: ['0']) fw.layout]
      ++ (rest.map (restWindowCmds sess)).flatten
      ++ (match ws.find? (·.active) with
          | some aw => [TmuxCmd.selectWindow (sess ++ ':' :: natChars aw.index)]
          | none => [])
      ++ [if insideTmux then TmuxCmd.switchClient sess else TmuxCmd.attachSession sess]

/-- `restore_tmux_session` as a whole: the issued tmux trace and the
error, if any.  `existingWindows` models the windows alive in the
multiplexer for the target session at invocation time; the implementation
never consults them.  `fileExists` models `save_path.exists()` and
`content` the file's text. -/
def restoreRun (existingWindows : List (Chars × Nat)) (fileExists : Bool)
    (content : Chars) (dryRun insideTmux : Bool) :
    List TmuxCmd × Option RestoreError :=
  if !fileExists then ([], some .noSavedSession)
  else
    let ws := parseContent content
    if ws = [] then ([], some .noWindowsFound)
    else if dryRun then ([], none)
    else (restoreTrace ws insideTmux, none)

/-! ## Front-end dispatch (`src/main.rs`) -/

/-- A step of the front-end's default verb (`main`, the `None` branch). -/
inductive Step where
  | newSession
  | tmux (c : TmuxCmd)
  | switchTo
  | save
deriving DecidableEq, Repr

/-- The default verb (no subcommand, not dry-run): attach when the
session exists; otherwise create a detached session, run the restore
discarding its result (`let _ = restore…`), switch, and snapshot.  The
second component tells whether the verb succeeds. -/
def defaultVerb (sessionExists : Bool) (existingWindows : List (Chars × Nat))
    (fileExists : Bool) (content : Chars) (insideTmux : Bool) :
    List Step × Bool :=
  if sessionExists then ([Step.switchTo], true)
  else
    let r := restoreRun existingWindows fileExists content false insideTmux
    (Step.newSession :: (r.1.map Step.tmux) ++ [Step.switchTo, Step.save], true)

/-- The `restore` subcommand of `main`:
`restore_tmux_session(…).and(switch_to_session(…))?` — it succeeds (exit
code zero) only when the inner restore reported no error and the switch
succeeded. -/
def restoreVerbOk (existingWindows : List (Chars × Nat)) (fileExists : Bool)
    (content : Chars) (dryRun insideTmux switchOk : Bool) : Bool :=
  (restoreRun existingWindows fileExists content dryRun insideTmux).2.isNone && switchOk

/-! ## SHA-256 (the `sha2` crate call in `src/session_info.rs`)

A direct embedding of FIPS 180-4 SHA-256 over byte lists, with 32-bit
words as `Nat` reduced `% 2^32`. -/

/-- Truncation to a 32-bit word. -/
def w32 (n : Nat) : Nat := n % 4294967296

/-- Right rotation of a 32-bit word by `k` (for `k ≤ 32`). -/
def rotr (x k : Nat) : Nat := w32 (x / 2 ^ k + x % 2 ^ k * 2 ^ (32 - k))

/-- Right shift of a 32-bit word. -/
def shr (x k : Nat) : Nat := x / 2 ^ k

/-- Bitwise complement of a 32-bit word. -/
def compl32 (x : Nat) : Nat := Nat.xor x 4294967295

/-- The eight working variables of the compression function. -/
structure Hash8 where
  a : Nat
  b : Nat
  c : Nat
  d : Nat
  e : Nat
  f : Nat
  g : Nat
  h : Nat
deriving Repr

/-- SHA-256 initial hash value. -/
def initH : Hash8 :=
  ⟨1779033703, 3144134277, 1013904242, 2773480762,
   1359893119, 2600822924, 528734635, 1541459225⟩

/-- SHA-256 round constants. -/
def sha256K : List Nat :=
  [1116352408, 1899447441, 3049323471, 3921009573, 961987163, 1508970993,
   2453635748, 2870763221, 3624381080, 310598401, 607225278, 1426881987,
   1925078388, 2162078206, 2614888103, 3248222580, 3835390401, 4022224774,
   264347078, 604807628, 770255983, 1249150122, 1555081692, 1996064986,
   2554220882, 2821834349, 2952996808, 3210313671, 3336571891, 3584528711,
   113926993, 338241895, 666307205, 773529912, 1294757372, 1396182291,
   1695183700, 1986661051, 2177026350, 2456956037, 2730485921, 2820302411,
   3259730800, 3345764771, 3516065817, 3600352804, 4094571909, 275423344,
   430227734, 506948616, 659060556, 883997877, 958139571, 1322822218,
   1537002063, 1747873779, 1955562222, 2024104815, 2227730452, 2361852424,
   2428436474, 2756734187, 3204031479, 3329325298]

/-- Pack bytes into big-endian 32-bit words. -/
def toWords : List Nat → List Nat
  | b0 :: b1 :: b2 :: b3 :: rest =>
    (b0 * 16777216 + b1 * 65536 + b2 * 256 + b3) :: toWords rest
  | _ => []

/-- One message-schedule extension step on the word list built so far. -/
def schedStep (acc : List Nat) : List Nat :=
  let n := acc.length
  acc ++ [w32 (w32 (Nat.xor (Nat.xor (rotr (acc.getD (n - 2) 0) 17)
                                      (rotr (acc.getD (n - 2) 0) 19))
                            (shr (acc.getD (n - 2) 0) 10))
            + acc.getD (n - 7) 0
            + w32 (Nat.xor (Nat.xor (rotr (acc.getD (n - 15) 0) 7)
                                    (rotr (acc.getD (n - 15) 0) 18))
                           (shr (acc.getD (n - 15) 0) 3))
            + acc.getD (n - 16) 0)]

/-- The 64-entry message schedule from a block's 16 words. -/
def schedule (w16 : List Nat) : List Nat :=
  (List.range 48).foldl (fun a _ => schedStep a) w16

/-- One SHA-256 compression round. -/
def round256 (v : Hash8) (wk : Nat × Nat) : Hash8 :=
  let S1 := w32 (Nat.xor (Nat.xor (rotr v.e 6) (rotr v.e 11)) (rotr v.e 25))
  let ch := w32 (Nat.xor (Nat.land v.e v.f) (Nat.land (compl32 v.e) v.g))
  let t1 := w32 (v.h + S1 + ch + wk.2 + wk.1)
  let S0 := w32 (Nat.xor (Nat.xor (rotr v.a 2) (rotr v.a 13)) (rotr v.a 22))
  let mj := w32 (Nat.xor (Nat.xor (Nat.land v.a v.b) (Nat.land v.a v.c))
                         (Nat.land v.b v.c))
  let t2 := w32 (S0 + mj)
  ⟨w32 (t1 + t2), v.a, v.b, v.c, w32 (v.d + t1), v.e, v.f, v.g⟩

/-- Word-wise modular sum of two hash states. -/
def add8 (x y : Hash8) : Hash8 :=
  ⟨w32 (x.a + y.a), w32 (x.b + y.b), w32 (x.c + y.c), w32 (x.d + y.d),
   w32 (x.e + y.e), w32 (x.f + y.f), w32 (x.g + y.g), w32 (x.h + y.h)⟩

/-- Process one 64-byte block. -/
def processBlock (st : Hash8) (block : List Nat) : Hash8 :=
  add8 st (((schedule (toWords block)).zip sha256K).foldl round256 st)

/-- The SHA-256 length padding: `128`, zeros, then the bit length as
eight big-endian bytes, reaching a multiple of 64 bytes. -/
def sha256Pad (msg : List Nat) : List Nat :=
  let L := msg.length
  let padLen := (119 - L % 64) % 64
  let bits := 8 * L
  msg ++ 128 :: List.replicate padLen 0
    ++ [bits / 2 ^ 56 % 256, bits / 2 ^ 48 % 256, bits / 2 ^ 40 % 256,
        bits / 2 ^ 32 % 256, bits / 2 ^ 24 % 256, bits / 2 ^ 16 % 256,
        bits / 2 ^ 8 % 256, bits % 256]

/-- Fuel-driven split into 64-byte blocks. -/
def chunks64 : Nat → List Nat → List (List Nat)
  | 0, _ => []
  | _, [] => []
  | fuel + 1, l => l.take 64 :: chunks64 fuel (l.drop 64)

/-- A hash state as 32 big-endian bytes. -/
def hash8Bytes (v : Hash8) : List Nat :=
  [v.a / 16777216 % 256, v.a / 65536 % 256, v.a / 256 % 256, v.a % 256]
    ++ [v.b / 16777216 % 256, v.b / 65536 % 256, v.b / 256 % 256, v.b % 256]
    ++ [v.c / 16777216 % 256, v.c / 65536 % 256, v.c / 256 % 256, v.c % 256]
    ++ [v.d / 16777216 % 256, v.d / 65536 % 256, v.d / 256 % 256, v.d % 256]
    ++ [v.e / 16777216 % 256, v.e / 65536 % 256, v.e / 256 % 256, v.e % 256]
    ++ [v.f / 16777216 % 256, v.f / 65536 % 256, v.f / 256 % 256, v.f % 256]
    ++ [v.g / 16777216 % 256, v.g / 65536 % 256, v.g / 256 % 256, v.g % 256]
    ++ [v.h / 16777216 % 256, v.h / 65536 % 256, v.h / 256 % 256, v.h % 256]

/-- SHA-256 digest (32 bytes) of a byte list. -/
def sha256 (msg : List Nat) : List Nat :=
  let padded := sha256Pad msg
  hash8Bytes ((chunks64 padded.length padded).foldl processBlock initH)

/-- The lowercase hexadecimal alphabet. -/
def hexAlphabet : Chars := "0123456789abcdef".data

/-- A nibble as a lowercase hexadecimal character. -/
def hexDigitCh (n : Nat) : Char := hexAlphabet.getD n '0'

/-- Lowercase hexadecimal rendering of a byte list
(Rust `format!("{:x}", hasher.finalize())`). -/
def bytesToHex (bs : List Nat) : Chars :=
  (bs.map (fun b => [hexDigitCh (b / 16), hexDigitCh (b % 16)])).flatten

/-- UTF-8 encoding of one code point. -/
def utf8Char (c : Nat) : List Nat :=
  if c < 128 then [c]
  else if c < 2048 then [192 + c / 64, 128 + c % 64]
  else if c < 65536 then
    [224 + c / 4096, 128 + c / 64 % 64, 128 + c % 64]
  else
    [240 + c / 262144, 128 + c / 4096 % 64, 128 + c / 64 % 64, 128 + c % 64]

/-- UTF-8 bytes of a string (Rust `str::as_bytes`). -/
def utf8Bytes (s : Chars) : List Nat :=
  (s.map (fun c => utf8Char c.toNat)).flatten

/-! ## Session identity (`src/session_info.rs`) -/

/-- `create_hash`: the first 16 characters of the lowercase hexadecimal
SHA-256 digest of the path string's bytes. -/
def create_hash (path : Chars) : Chars :=
  (bytesToHex (sha256 (utf8Bytes path))).take 16

/-- Rust `Path::file_name` on an absolute path: the final normal
component (`"."` components are skipped, a final `".."` or the root has
no file name). -/
def fileNameOf (p : Chars) : Option Chars :=
  let comps := (splitOnChar '/' p).filter (fun c => c ≠ [] && c ≠ ['.'])
  match comps.getLast? with
  | none => none
  | some c => if c = ['.', '.'] then none else some c

/-- `get_session_info`, after directory resolution: from the resolved
directory string and `HOME`, the triple (directory, save path, session
name).  Fails (`"Failed to get directory name"`) exactly when the
directory has no extractable final component. -/
def get_session_info (home dir : Chars) : Option (Chars × Chars × Chars) :=
  match fileNameOf dir with
  | none => none
  | some session_name =>
    let filename := "session_".data ++ create_hash dir ++ '_' :: session_name
                      ++ ".tmux".data
    some (dir, home ++ "/.tmux/tici/".data ++ filename, session_name)

/-! ## Snapshot (`src/save.rs`, `save_tmux_session` and `Window::get_panes`)

The tmux queries a snapshot performs are modelled by an environment
record: the `list-windows` output, and per window target the
`list-panes` exit status and output and per pane target the
`capture-pane` exit status.  Child processes are assumed to spawn (a
spawn failure is a fatal environment error in the code). -/

/-- The window target `"{session_name}:{window_index}"` used by
`Window::get_panes`. -/
def paneQueryTarget (w : Window) : Chars := w.session_name ++ ':' :: natChars w.index

/-- The multiplexer's observable behaviour during a snapshot. -/
structure SaveEnv where
  /-- `status.success()` of `tmux list-windows`. -/
  listWindowsOk : Bool
  /-- stdout of `tmux list-windows` with the window format string. -/
  listWindowsOut : Chars
  /-- per window target, `status.success()` and stdout of
  `tmux list-panes -t <target>` with the pane format string. -/
  listPanes : Chars → Bool × Chars
  /-- per pane target, `status.success()` of
  `tmux capture-pane -p -t <target>`. -/
  captureOk : Chars → Bool

/-- `Window::from_format_str`: tab-split the record; field 1 is the
session name, 2 the index, 3 the sentinel-prefixed name, 4 the active
flag, 5 the layout.  Records with fewer than six fields fail (with five
fields the Rust code's `parts[5]` access panics; either way the snapshot
aborts). -/
def Window.from_format_str (s : Chars) : Option Window :=
  match splitOnChar '\t' s with
  | _ :: p1 :: p2 :: p3 :: p4 :: p5 :: _ =>
    (parseU32 p2).map (fun index =>
      { session_name := p1, index, name := stripCharsStart ':' p3,
        active := p4 = ['1'], layout := p5, panes := [] })
  | _ => none

/-- One line of `list-panes` output inside `Window::get_panes`: twelve
tab-separated fields are required; fields 5–11 are the pane's index,
title, sentinel-prefixed path, active flag, command, pid and history
size; numeric parse failures default to 0.  The pane is kept only when
its `capture-pane` call succeeds. -/
def parsePaneInfo (env : SaveEnv) (w : Window) (line : Chars) : Option Pane :=
  match splitOnChar '\t' line with
  | _ :: _ :: _ :: _ :: _ :: p5 :: p6 :: p7 :: p8 :: p9 :: p10 :: p11 :: _ =>
    let index := (parseU32 p5).getD 0
    if env.captureOk (w.session_name ++ ':' :: natChars w.index
                        ++ '.' :: natChars index) then
      some { index, title := p6, current_path := stripCharsStart ':' p7,
             active := p8 = ['1'], current_command := p9,
             pid := (parseU32 p10).getD 0,
             history_size := (parseU32 p11).getD 0 }
    else none
  | _ => none

/-- `Window::get_panes`: when `list-panes` exits non-zero the window is
left without panes (`return Ok(())`); otherwise the panes are the valid,
captured records of its output lines. -/
def Window.get_panes (env : SaveEnv) (w : Window) : Window :=
  let r := env.listPanes (paneQueryTarget w)
  if !r.1 then w
  else { w with panes := (rustLines r.2).filterMap (parsePaneInfo env w) }

/-- Errors surfaced by `save_tmux_session`. -/
inductive SaveError where
  /-- `"Failed to list tmux windows"`. -/
  | listWindowsFailed
  /-- `"Failed to parse window format: {line}"`. -/
  | malformedWindow (line : Chars)
deriving DecidableEq, Repr

/-- The window-by-window accumulation of `save_tmux_session`: each
`list-windows` line must parse, then the window's panes are fetched. -/
def saveWindows (env : SaveEnv) : List Chars → Except SaveError (List Window)
  | [] => .ok []
  | l :: ls =>
    match Window.from_format_str l with
    | none => .error (.malformedWindow l)
    | some w => (saveWindows env ls).map (fun rest => Window.get_panes env w :: rest)

/-- `save_tmux_session`: list the windows, build each with its panes, and
write the serialized text.  Returns the snapshotted windows and the file
text on success. -/
def saveRun (env : SaveEnv) : Except SaveError (List Window × Chars) :=
  if !env.listWindowsOk then .error .listWindowsFailed
  else
    (saveWindows env (rustLines env.listWindowsOut)).map
      (fun ws => (ws, serializeSession ws))

/-! ## Predicates used by the verified properties -/

/-- No whitespace character occurs in the string. -/
def noWsB (s : Chars) : Bool := s.all (fun c => !rustIsWs c)

/-- A pane the space-separated pane record represents faithfully:
whitespace-free text fields and `u32`-range numbers. -/
def Pane.wf (p : Pane) : Bool :=
  noWsB p.title && noWsB p.current_path && noWsB p.current_command
    && decide (p.index ≤ u32Max) && decide (p.pid ≤ u32Max)
    && decide (p.history_size ≤ u32Max)

/-- A window the whitespace-separated window record represents
faithfully: whitespace-free fields, no `':'` in the session name, a name
that does not start with `'('` nor end with `')'`, a non-empty layout,
`u32`-range index, and well-formed panes. -/
def Window.wf (w : Window) : Bool :=
  noWsB w.session_name && decide (':' ∉ w.session_name)
    && noWsB w.name && decide (w.name.head? ≠ some '(')
    && decide (w.name.getLast? ≠ some ')')
    && noWsB w.layout && decide (w.layout ≠ [])
    && decide (w.index ≤ u32Max) && w.panes.all Pane.wf

/-- All windows of the session are well-formed. -/
def wfSession (ws : List Window) : Bool := ws.all Window.wf

/-- The character `'|'` occurs in none of the session's string fields
(the hypothesis of the claimed round-trip law). -/
def pipeFree (ws : List Window) : Bool :=
  ws.all (fun w =>
    decide ('|' ∉ w.session_name) && decide ('|' ∉ w.name)
      && decide ('|' ∉ w.layout)
      && w.panes.all (fun p =>
          decide ('|' ∉ p.title) && decide ('|' ∉ p.current_path)
            && decide ('|' ∉ p.current_command)))

/-- Whether a command is a `kill-window` or a `list-windows`. -/
def isPurgeCmd : TmuxCmd → Bool
  | .killWindow _ => true
  | .listWindows => true
  | _ => false

/-- Whether a command is a `select-window`. -/
def isSelWindow : TmuxCmd → Bool
  | .selectWindow _ => true
  | _ => false

/-- Whether a command addresses the multiplexer session named `s`: session
arguments equal `s` and window/pane targets start with `s ++ ":"`. -/
def addressesSession (s : Chars) : TmuxCmd → Bool
  | .newSessionDetached s' _ => s' = s
  | .splitWindow t _ => (s ++ [':']).isPrefixOf t
  | .selectLayout t _ => (s ++ [':']).isPrefixOf t
  | .newWindow t _ => (s ++ [':']).isPrefixOf t
  | .selectPane t => (s ++ [':']).isPrefixOf t
  | .selectWindow t => (s ++ [':']).isPrefixOf t
  | .switchClient s' => s' = s
  | .attachSession s' => s' = s
  | .listWindows => false
  | .killWindow t => (s ++ [':']).isPrefixOf t

/-- The multiplexer reported, for this window, a successful `list-panes`
with at least one twelve-field record whose `capture-pane` succeeded. -/
def envHasPane (env : SaveEnv) (w : Window) : Prop :=
  (env.listPanes (paneQueryTarget w)).1 = true ∧
    ∃ l ∈ rustLines (env.listPanes (paneQueryTarget w)).2,
      (parsePaneInfo env w l).isSome = true

/-! ## Concrete example data used by witnesses and counterexamples -/

/-- A well-formed one-window, one-pane session. -/
def exSession : List Window :=
  [{ session_name := "s".data, index := 0, name := "n".data, active := true,
     layout := "L".data,
     panes := [{ index := 0, title := "t".data, current_path := "/p".data,
                 active := true, current_command := "c".data, pid := 5,
                 history_size := 7 }] }]

/-- A session whose only flaw is a space inside a pane title; it contains
no `'|'` anywhere. -/
def exSpaceTitle : List Window :=
  [{ session_name := "s".data, index := 0, name := "n".data, active := true,
     layout := "L".data,
     panes := [{ index := 0, title := "a b".data, current_path := "/p".data,
                 active := true, current_command := "c".data, pid := 1,
                 history_size := 2 }] }]

/-- A well-formed save-file text: one window `s:0` named `n`, active,
layout `L`, with one pane. -/
def exContent : Chars :=
  "# Window: s:0 (n) 1 L\n# Pane: 0 1 t /p c 5 7\n".data

/-- A save-file text whose first window record lacks the layout field and
whose pane record has the non-numeric index `x`. -/
def exMalformed : Chars :=
  "# Window: s:0 (n) 1\n# Window: s:1 (m) 1 L\n# Pane: x 1 t p c 5 7\n".data

/-- A snapshot environment: one window `s:0` named `n`, whose
`list-panes` reports one twelve-field pane record and whose
`capture-pane` succeeds. -/
def exEnv : SaveEnv where
  listWindowsOk := true
  listWindowsOut := "window\ts\t0\t:n\t1\tL".data
  listPanes := fun _ => (true, "pane\ts\t0\t1\t:-\t0\tt\t:/p\t1\tc\t5\t7".data)
  captureOk := fun _ => true

/-- A snapshot environment whose `list-panes` succeeds but reports
nothing. -/
def exEnvNoPanes : SaveEnv where
  listWindowsOk := true
  listWindowsOut := "window\ts\t0\t:n\t1\tL".data
  listPanes := fun _ => (true, [])
  captureOk := fun _ => true

/-- The pane-less window parsed from `exEnv`'s window record. -/
def exWinBare : Window :=
  { session_name := "s".data, index := 0, name := "n".data, active := true,
    layout := "L".data, panes := [] }

/-! # Lemmas

## Decimal printing and parsing -/

theorem digitCh_isDigit {m : Nat} (h : m < 10) : (digitCh m).isDigit = true := by
  interval_cases m <;> decide

theorem digitCh_toNat {m : Nat} (h : m < 10) : (digitCh m).toNat = 48 + m := by
  interval_cases m <;> decide

theorem natCharsAux_acc (fuel : Nat) : ∀ (n : Nat) (acc : Chars),
    natCharsAux fuel n acc = natCharsAux fuel n [] ++ acc := by
  induction fuel with
  | zero => intro n acc; simp [natCharsAux]
  | succ fuel ih =>
    intro n acc
    by_cases h : n < 10
    · simp [natCharsAux, h]
    · rw [natCharsAux, natCharsAux, if_neg h, if_neg h, ih (n / 10),
        ih (n / 10) [digitCh (n % 10)], List.append_assoc]
      rfl

theorem natCharsAux_fuel : ∀ (n f₁ f₂ : Nat), n < f₁ → n < f₂ →
    natCharsAux f₁ n [] = natCharsAux f₂ n [] := by
  intro n
  induction n using Nat.strong_induction_on with
  | _ n ih =>
    intro f₁ f₂ h₁ h₂
    match f₁, f₂ with
    | g₁ + 1, g₂ + 1 =>
      by_cases h : n < 10
      · simp [natCharsAux, h]
      · have hd : n / 10 < n := Nat.div_lt_self (by omega) (by omega)
        have hd' : n / 10 + 1 ≤ n := by omega
        rw [natCharsAux, natCharsAux, if_neg h, if_neg h,
          natCharsAux_acc g₁, natCharsAux_acc g₂,
          ih (n / 10) hd g₁ g₂ (by omega) (by omega)]

theorem natChars_unfold {n : Nat} (h : ¬ n < 10) :
    natChars n = natChars (n / 10) ++ [digitCh (n % 10)] := by
  have hd : n / 10 < n := Nat.div_lt_self (by omega) (by omega)
  rw [natChars, natCharsAux, if_neg h, natCharsAux_acc, natChars,
    natCharsAux_fuel (n / 10) n (n / 10 + 1) (by omega) (by omega)]

theorem natChars_small {n : Nat} (h : n < 10) : natChars n = [digitCh n] := by
  simp [natChars, natCharsAux, h]

theorem natChars_ne_nil (n : Nat) : natChars n ≠ [] := by
  induction n using Nat.strong_induction_on with
  | _ n ih =>
    by_cases h : n < 10
    · simp [natChars_small h]
    · rw [natChars_unfold h]; simp

theorem natChars_all_digits (n : Nat) : ∀ c ∈ natChars n, c.isDigit = true := by
  induction n using Nat.strong_induction_on with
  | _ n ih =>
    by_cases h : n < 10
    · rw [natChars_small h]
      intro c hc
      rw [List.mem_singleton] at hc
      exact hc ▸ digitCh_isDigit h
    · rw [natChars_unfold h]
      intro c hc
      rcases List.mem_append.mp hc with h' | h'
      · exact ih (n / 10) (Nat.div_lt_self (by omega) (by omega)) c h'
      · rw [List.mem_singleton] at h'
        exact h' ▸ digitCh_isDigit (Nat.mod_lt n (by omega))

theorem digitsToNat_natChars (n : Nat) : digitsToNat (natChars n) = n := by
  induction n using Nat.strong_induction_on with
  | _ n ih =>
    by_cases h : n < 10
    · rw [natChars_small h]
      simp [digitsToNat, digitCh_toNat h]
    · rw [natChars_unfold h]
      rw [digitsToNat, List.foldl_append]
      have := ih (n / 10) (Nat.div_lt_self (by omega) (by omega))
      rw [digitsToNat] at this
      rw [this]
      simp [digitCh_toNat (Nat.mod_lt n (by omega))]
      omega

theorem parseU32_natChars {n : Nat} (h : n ≤ u32Max) :
    parseU32 (natChars n) = some n := by
  have hne := natChars_ne_nil n
  have hdig := natChars_all_digits n
  have hplus : ∀ s, natChars n ≠ '+' :: s := by
    intro s hs
    have : ('+' : Char).isDigit = true := hdig '+' (by rw [hs]; simp)
    simp at this
  rw [parseU32]
  rw [if_neg hne, if_pos (List.all_eq_true.mpr (fun c hc => hdig c hc)),
    digitsToNat_natChars, if_pos h]
  exact fun rest hr => hplus rest hr

theorem rustIsWs_digitCh {m : Nat} (h : m < 10) : rustIsWs (digitCh m) = false := by
  rw [rustIsWs, digitCh_toNat h, rustWsNat]
  simp only [decide_eq_false_iff_not]
  omega

theorem natChars_digit_shape (n : Nat) :
    ∀ c ∈ natChars n, ∃ m, m < 10 ∧ c = digitCh m := by
  induction n using Nat.strong_induction_on with
  | _ n ih =>
    by_cases h : n < 10
    · rw [natChars_small h]
      intro c hc
      rw [List.mem_singleton] at hc
      exact ⟨n, h, hc⟩
    · rw [natChars_unfold h]
      intro c hc
      rcases List.mem_append.mp hc with h' | h'
      · exact ih (n / 10) (Nat.div_lt_self (by omega) (by omega)) c h'
      · rw [List.mem_singleton] at h'
        exact ⟨n % 10, Nat.mod_lt n (by omega), h'⟩

theorem natChars_no_ws (n : Nat) : ∀ c ∈ natChars n, rustIsWs c = false := by
  intro c hc
  obtain ⟨m, hm, rfl⟩ := natChars_digit_shape n c hc
  exact rustIsWs_digitCh hm

/-! ## Splitting lemmas -/

theorem splitWsAux_chunk : ∀ (tok : Chars), (∀ c ∈ tok, rustIsWs c = false) →
    ∀ (acc rest : Chars),
    splitWsAux acc (tok ++ rest) = splitWsAux (tok.reverse ++ acc) rest := by
  intro tok
  induction tok with
  | nil => intro _ acc rest; simp
  | cons c cs ih =>
    intro h acc rest
    have hc : rustIsWs c = false := h c (by simp)
    rw [List.cons_append, splitWsAux, if_neg (by simp [hc])]
    rw [ih (fun d hd => h d (by simp [hd])) (c :: acc) rest]
    simp

theorem splitWsAux_stop (acc : Chars) (h : acc ≠ []) (rest : Chars) :
    splitWsAux acc (' ' :: rest) = acc.reverse :: splitWsAux [] rest := by
  rw [splitWsAux, if_pos (by decide), if_neg h]

theorem splitWs_sep (tok : Chars) (hne : tok ≠ [])
    (h : ∀ c ∈ tok, rustIsWs c = false) (rest : Chars) :
    splitWs (tok ++ ' ' :: rest) = tok :: splitWs rest := by
  rw [splitWs, splitWsAux_chunk tok h [] (' ' :: rest),
    splitWsAux_stop _ (by simp [hne]), List.reverse_append]
  simp [splitWs]

theorem splitWs_last (tok : Chars) (hne : tok ≠ [])
    (h : ∀ c ∈ tok, rustIsWs c = false) :
    splitWs tok = [tok] := by
  have := splitWsAux_chunk tok h [] []
  rw [List.append_nil] at this
  rw [splitWs, this, splitWsAux, if_neg (by simp [hne])]
  simp

theorem splitOnceChar_sep (sep : Char) : ∀ (l : Chars), sep ∉ l → ∀ (rest : Chars),
    splitOnceChar sep (l ++ sep :: rest) = some (l, rest) := by
  intro l
  induction l with
  | nil => intro _ rest; simp [splitOnceChar]
  | cons c cs ih =>
    intro h rest
    have hc : ¬ c = sep := fun hc => h (by simp [hc])
    rw [List.cons_append, splitOnceChar, if_neg (by simpa using fun hc' => hc hc')]
    rw [ih (fun hm => h (by simp [hm])) rest]
    rfl

theorem splitnSp_step (n : Nat) (piece : Chars) (h : ' ' ∉ piece) (rest : Chars) :
    splitnSp (n + 2) (piece ++ ' ' :: rest) = piece :: splitnSp (n + 1) rest := by
  rw [splitnSp, splitOnceChar_sep ' ' piece h rest]

theorem splitnSp_one (s : Chars) : splitnSp 1 s = [s] := rfl

theorem no_ws_no_space {s : Chars} (h : ∀ c ∈ s, rustIsWs c = false) : ' ' ∉ s := by
  intro hm
  exact absurd (h ' ' hm) (by decide)

/-! ## Prefix-stripping lemmas -/

theorem stripRepGo_of_not {p s : Chars} (h : p.isPrefixOf s = false) :
    ∀ n, stripRepGo p n s = s := by
  intro n
  cases n with
  | zero => rfl
  | succ n => rw [stripRepGo, if_neg (by simp [h])]

theorem isPrefixOf_append_self (p rest : Chars) : p.isPrefixOf (p ++ rest) = true :=
  List.isPrefixOf_iff_prefix.mpr (List.prefix_append p rest)

theorem stripRep_strip_once {p body : Chars} (hp : p ≠ [])
    (h : p.isPrefixOf body = false) : stripRep p (p ++ body) = body := by
  have hlen : (p ++ body).length = (p.length - 1 + body.length) + 1 := by
    rcases p with _ | ⟨c, cs⟩
    · exact absurd rfl hp
    · simp only [List.length_cons, List.length_append]; omega
  rw [stripRep, hlen, stripRepGo, if_pos (by simp [isPrefixOf_append_self]),
    List.drop_left, stripRepGo_of_not h]

/-! ## `rustLines` lemmas -/

theorem splitOnChar_ne_nil (sep : Char) : ∀ (s : Chars), splitOnChar sep s ≠ [] := by
  intro s
  cases s with
  | nil => simp [splitOnChar]
  | cons c cs =>
    rw [splitOnChar]
    match h : splitOnChar sep cs with
    | [] => simp
    | p :: ps => by_cases hc : c = sep <;> simp [hc]

theorem splitOnChar_append (sep : Char) : ∀ (l : Chars), sep ∉ l → ∀ (rest : Chars),
    splitOnChar sep (l ++ sep :: rest) = l :: splitOnChar sep rest := by
  intro l
  induction l with
  | nil =>
    intro _ rest
    rw [List.nil_append, splitOnChar]
    match h : splitOnChar sep rest with
    | [] => exact absurd h (splitOnChar_ne_nil sep rest)
    | p :: ps => simp
  | cons c cs ih =>
    intro h rest
    have hc : ¬ c = sep := fun hc => h (by simp [hc])
    rw [List.cons_append, splitOnChar, ih (fun hm => h (by simp [hm])) rest]
    simp [hc]

/-- Append `'\n'` to every line and concatenate: the exact text shape the
serializer produces. -/
theorem rustLines_joinNl : ∀ (ls : List Chars),
    (∀ l ∈ ls, '\n' ∉ l ∧ l.getLast? ≠ some '\r') →
    rustLines ((ls.map (fun l => l ++ ['\n'])).flatten) = ls := by
  intro ls
  induction ls with
  | nil => intro _; rfl
  | cons l ls ih =>
    intro h
    obtain ⟨hnl, hcr⟩ := h l (by simp)
    have htail : ∀ m ∈ ls, '\n' ∉ m ∧ m.getLast? ≠ some '\r' :=
      fun m hm => h m (List.mem_cons_of_mem _ hm)
    have hrec := ih htail
    rw [List.map_cons, List.flatten_cons, List.append_assoc, List.singleton_append]
    rw [rustLines] at hrec ⊢
    rw [splitOnChar_append '\n' l hnl]
    rcases hsp : splitOnChar '\n' ((ls.map (fun m => m ++ ['\n'])).flatten) with _ | ⟨p, ps⟩
    · exact absurd hsp (splitOnChar_ne_nil _ _)
    · rw [hsp] at hrec
      rw [rustLinesAux, hrec, stripCR, if_neg hcr]
      exact fun hk => List.noConfusion hk

/-! ## The serialized text as newline-joined line bodies -/

theorem serializeSession_eq_joinNl (ws : List Window) :
    serializeSession ws = ((serLines ws).map (fun l => l ++ ['\n'])).flatten := by
  induction ws with
  | nil => rfl
  | cons w ws ih =>
    rw [serializeSession, List.map_cons, List.flatten_cons, serLines, List.map_cons,
      List.flatten_cons, ← serializeSession, ih, serializeWindow, ← serLines]
    simp [List.map_map, Function.comp_def, List.append_assoc]

/-! ## `Window.from_line` on a serialized window record -/

theorem wTag_not_pre (sess : Chars) (h : ∀ c ∈ sess, rustIsWs c = false)
    (rest : Chars) : wTag.isPrefixOf (sess ++ ':' :: rest) = false := by
  match sess with
  | [] => rfl
  | [c] =>
    show (('#' == c) && ((' ' == ':') && _)) = false
    simp
  | c :: c₂ :: cs =>
    show (('#' == c) && ((' ' == c₂) && _)) = false
    have : rustIsWs c₂ = false := h c₂ (by simp)
    have hne : ¬ (' ' == c₂) = true := by
      simp only [beq_iff_eq]
      intro hsp
      rw [← hsp] at this
      exact absurd this (by decide)
    simp only [Bool.and_eq_false_iff]
    right; left
    exact Bool.not_eq_true _ ▸ (by simpa using hne)

theorem strip_open_paren (name : Chars) (h : name.head? ≠ some '(') :
    stripCharsStart '(' ('(' :: name ++ [')']) = name ++ [')'] := by
  rw [stripCharsStart, List.cons_append, List.dropWhile_cons, if_pos (by simp)]
  match name with
  | [] => simp
  | c :: cs =>
    have hc : ¬ c = '(' := by
      intro hc
      exact h (by simp [hc])
    rw [List.cons_append, List.dropWhile_cons, if_neg (by simp [hc])]

theorem strip_close_paren (name : Chars) (h : name.getLast? ≠ some ')') :
    stripCharsEnd ')' (name ++ [')']) = name := by
  rw [stripCharsEnd, List.reverse_append, List.reverse_cons, List.reverse_nil,
    List.nil_append, List.singleton_append, List.dropWhile_cons, if_pos (by simp)]
  match hn : name.reverse with
  | [] =>
    have : name = [] := by simpa using congrArg List.reverse hn
    simp [this]
  | c :: cs =>
    have hlast : name.getLast? = some c := by
      rw [← List.head?_reverse, hn]
      rfl
    have hc : ¬ c = ')' := by
      intro hc
      exact h (hc ▸ hlast)
    rw [List.dropWhile_cons, if_neg (by simp [hc]), ← hn, List.reverse_reverse]

theorem from_line_serialized (w : Window) (hw : w.wf = true) :
    Window.from_line (windowLineBody w) = some { w with panes := [] } := by
  simp only [Window.wf, Bool.and_eq_true, noWsB, List.all_eq_true,
    decide_eq_true_eq, Bool.not_eq_true'] at hw
  obtain ⟨⟨⟨⟨⟨⟨⟨⟨hsess, hcolon⟩, hname⟩, hnameh⟩, hnamel⟩, hlay⟩, hlayne⟩, hidx⟩, _⟩ := hw
  have hact : ∀ c ∈ [if w.active then '1' else '0'], rustIsWs c = false := by
    cases w.active <;> decide
  have hsessws : ∀ c ∈ w.session_name, rustIsWs c = false := hsess
  have htok1ws : ∀ c ∈ w.session_name ++ ':' :: natChars w.index,
      rustIsWs c = false := by
    intro c hc
    rcases List.mem_append.mp hc with h' | h'
    · exact hsessws c h'
    · rcases List.mem_cons.mp h' with rfl | h''
      · decide
      · exact natChars_no_ws _ c h''
  have htok2ws : ∀ c ∈ '(' :: w.name ++ [')'], rustIsWs c = false := by
    intro c hc
    rcases List.mem_cons.mp hc with rfl | h'
    · decide
    · rcases List.mem_append.mp h' with h'' | h''
      · exact hname c h''
      · rcases List.mem_singleton.mp h'' with rfl
        decide
  have hbody : windowLineBody w
      = wTag ++ ((w.session_name ++ ':' :: natChars w.index)
          ++ ' ' :: (('(' :: w.name ++ [')'])
          ++ ' ' :: ([if w.active then '1' else '0'] ++ ' ' :: w.layout))) := by
    simp [windowLineBody, List.append_assoc]
  have hstrip : stripRep wTag (windowLineBody w)
      = (w.session_name ++ ':' :: natChars w.index)
          ++ ' ' :: (('(' :: w.name ++ [')'])
          ++ ' ' :: ([if w.active then '1' else '0'] ++ ' ' :: w.layout)) := by
    rw [hbody]
    refine stripRep_strip_once (by decide) ?_
    rw [List.append_assoc]
    exact wTag_not_pre w.session_name hsessws _
  have hsplit : splitWs (stripRep wTag (windowLineBody w))
      = [w.session_name ++ ':' :: natChars w.index, '(' :: w.name ++ [')'],
         [if w.active then '1' else '0'], w.layout] := by
    rw [hstrip, splitWs_sep _ (by simp) htok1ws,
      splitWs_sep _ (by simp) htok2ws,
      splitWs_sep _ (by simp) hact,
      splitWs_last _ hlayne hlay]
  rw [Window.from_line, hsplit]
  simp only [List.get?_eq_getElem?, List.getElem?_cons_zero, List.getElem?_cons_succ,
    Option.bind_eq_bind, Option.some_bind,
    splitOnceChar_sep ':' w.session_name hcolon (natChars w.index),
    strip_open_paren w.name hnameh, strip_close_paren w.name hnamel,
    parseU32_natChars hidx, Option.pure_def]
  cases hwa : w.active <;> simp [hwa]

/-! ## `parsePaneData` on a serialized pane record -/

theorem parsePaneData_serialized (p : Pane) (hp : p.wf = true) :
    parsePaneData (serializePaneData p) = some p := by
  simp only [Pane.wf, Bool.and_eq_true, noWsB, List.all_eq_true,
    decide_eq_true_eq, Bool.not_eq_true'] at hp
  obtain ⟨⟨⟨⟨⟨ht, hpa⟩, hc⟩, hi⟩, hpid⟩, hhist⟩ := hp
  have hgroup : serializePaneData p
      = natChars p.index ++ ' ' :: ([if p.active then '1' else '0']
          ++ ' ' :: (p.title ++ ' ' :: (p.current_path
          ++ ' ' :: (p.current_command ++ ' ' :: (natChars p.pid
          ++ ' ' :: natChars p.history_size))))) := by
    simp [serializePaneData, List.append_assoc]
  have hacts : ' ' ∉ [if p.active then '1' else '0'] := by
    cases p.active <;> simp
  have hsplit : splitnSp 7 (serializePaneData p)
      = [natChars p.index, [if p.active then '1' else '0'], p.title,
         p.current_path, p.current_command, natChars p.pid,
         natChars p.history_size] := by
    rw [hgroup,
      splitnSp_step 5 _ (no_ws_no_space (natChars_no_ws p.index)),
      splitnSp_step 4 _ hacts,
      splitnSp_step 3 _ (no_ws_no_space ht),
      splitnSp_step 2 _ (no_ws_no_space hpa),
      splitnSp_step 1 _ (no_ws_no_space hc),
      splitnSp_step 0 _ (no_ws_no_space (natChars_no_ws p.pid)),
      splitnSp_one]
  rw [parsePaneData, hsplit]
  simp only [parseU32_natChars hi, parseU32_natChars hpid, parseU32_natChars hhist,
    Option.getD_some]
  cases hpact : p.active <;> simp [hpact] <;> rw [← hpact]

/-! ## The parser loop over serialized lines -/

theorem wTag_pre_windowLineBody (w : Window) :
    wTag.isPrefixOf (windowLineBody w) = true := by
  rw [windowLineBody]
  exact List.isPrefixOf_iff_prefix.mpr (List.prefix_append _ _)

theorem wTag_not_pre_paneLine (p : Pane) :
    wTag.isPrefixOf (paneLineBody p) = false := rfl

theorem pTag_pre_paneLine (p : Pane) :
    pTag.isPrefixOf (paneLineBody p) = true :=
  List.isPrefixOf_iff_prefix.mpr (List.prefix_append _ _)

theorem paneLine_drop (p : Pane) :
    (paneLineBody p).drop pTag.length = serializePaneData p :=
  List.drop_left _ _

theorem parseLoop_cons_window {l : Chars} (hl : wTag.isPrefixOf l = true)
    (ls : List Chars) (cur : Option Window) (acc : List Window) :
    parseLoop (l :: ls) cur acc
      = parseLoop ls (Window.from_line l) (acc ++ optWindowList cur) := by
  rw [parseLoop, if_pos hl]

theorem parseLoop_cons_pane {l : Chars} (hw : wTag.isPrefixOf l = false)
    (hp : pTag.isPrefixOf l = true) {p : Pane}
    (hd : parsePaneData (l.drop pTag.length) = some p)
    (ls : List Chars) (w : Window) (acc : List Window) :
    parseLoop (l :: ls) (some w) acc
      = parseLoop ls (some { w with panes := w.panes ++ [p] }) acc := by
  rw [parseLoop, if_neg (by simp [hw]), if_pos hp, hd]
  rfl

theorem parseLoop_panes : ∀ (ps : List Pane), (∀ p ∈ ps, p.wf = true) →
    ∀ (w : Window) (rest : List Chars) (acc : List Window),
    parseLoop (ps.map paneLineBody ++ rest) (some w) acc
      = parseLoop rest (some { w with panes := w.panes ++ ps }) acc := by
  intro ps
  induction ps with
  | nil => intro _ w rest acc; simp
  | cons p ps ih =>
    intro h w rest acc
    have hd : parsePaneData ((paneLineBody p).drop pTag.length) = some p := by
      rw [paneLine_drop, parsePaneData_serialized p (h p (by simp))]
    rw [List.map_cons, List.cons_append,
      parseLoop_cons_pane (wTag_not_pre_paneLine p) (pTag_pre_paneLine p) hd,
      ih (fun q hq => h q (by simp [hq])) { w with panes := w.panes ++ [p] } rest acc]
    simp [List.append_assoc]

theorem parseLoop_session : ∀ (ws : List Window), wfSession ws = true →
    ∀ (cur : Option Window) (acc : List Window),
    parseLoop ((ws.map (fun w => windowLineBody w :: w.panes.map paneLineBody)).flatten)
        cur acc
      = acc ++ optWindowList cur ++ ws := by
  intro ws
  induction ws with
  | nil => intro _ cur acc; simp [parseLoop]
  | cons w ws ih =>
    intro h cur acc
    rw [wfSession, List.all_cons, Bool.and_eq_true] at h
    obtain ⟨hw, hws⟩ := h
    have hpanes : ∀ p ∈ w.panes, p.wf = true := by
      have := hw
      simp only [Window.wf, Bool.and_eq_true, List.all_eq_true] at this
      exact this.2
    rw [List.map_cons, List.flatten_cons, List.cons_append,
      parseLoop_cons_window (wTag_pre_windowLineBody w), from_line_serialized w hw,
      parseLoop_panes w.panes hpanes _ _ _, ih hws]
    simp [optWindowList, List.append_assoc]

/-- Every character of a serialized window record line comes from the
tag, a field, a printed number, or a literal separator. -/
theorem windowLineBody_chars {c : Char} {w : Window} (hc : c ∈ windowLineBody w) :
    c ∈ wTag ∨ c ∈ w.session_name ∨ c ∈ natChars w.index ∨ c ∈ w.name
      ∨ c ∈ w.layout ∨ c ∈ ([':', ' ', '(', ')', '1', '0'] : Chars) := by
  cases hact : w.active <;>
    (simp only [windowLineBody, hact, List.mem_append, List.mem_cons,
       List.mem_singleton, if_true, if_false, Bool.false_eq_true] at hc ⊢
     tauto)

/-- Every character of a serialized pane record line comes from the tag,
a field, a printed number, or a literal separator. -/
theorem paneLineBody_chars {c : Char} {p : Pane} (hc : c ∈ paneLineBody p) :
    c ∈ pTag ∨ c ∈ natChars p.index ∨ c ∈ p.title ∨ c ∈ p.current_path
      ∨ c ∈ p.current_command ∨ c ∈ natChars p.pid ∨ c ∈ natChars p.history_size
      ∨ c ∈ ([' ', '1', '0'] : Chars) := by
  cases hact : p.active <;>
    (simp only [paneLineBody, serializePaneData, hact, List.mem_append,
       List.mem_cons, List.mem_singleton, if_true, if_false,
       Bool.false_eq_true] at hc ⊢
     tauto)

/-- On a line emitted by the serializer for a well-formed session, the
only whitespace character is the separating blank. -/
theorem serLine_ws_is_space {ws : List Window} (h : wfSession ws = true) {l : Chars}
    (hl : l ∈ (ws.map (fun w => windowLineBody w :: w.panes.map paneLineBody)).flatten) :
    ∀ c ∈ l, rustIsWs c = true → c = ' ' := by
  rw [List.mem_flatten] at hl
  obtain ⟨grp, hgrp, hlg⟩ := hl
  rw [List.mem_map] at hgrp
  obtain ⟨w, hwmem, rfl⟩ := hgrp
  have hw : w.wf = true := by
    rw [wfSession, List.all_eq_true] at h
    exact h w hwmem
  simp only [Window.wf, Bool.and_eq_true, noWsB, List.all_eq_true,
    decide_eq_true_eq, Bool.not_eq_true'] at hw
  obtain ⟨⟨⟨⟨⟨⟨⟨⟨hsess, _⟩, hname⟩, _⟩, _⟩, hlay⟩, _⟩, _⟩, hpw⟩ := hw
  intro c hc hcw
  rcases List.mem_cons.mp hlg with rfl | hpl
  · rcases windowLineBody_chars hc with h' | h' | h' | h' | h' | h'
    · exact (by decide : ∀ c ∈ wTag, rustIsWs c = true → c = ' ') c h' hcw
    · exact absurd hcw (by simp [hsess c h'])
    · exact absurd hcw (by simp [natChars_no_ws _ c h'])
    · exact absurd hcw (by simp [hname c h'])
    · exact absurd hcw (by simp [hlay c h'])
    · exact (by decide : ∀ c ∈ ([':', ' ', '(', ')', '1', '0'] : Chars),
        rustIsWs c = true → c = ' ') c h' hcw
  · rw [List.mem_map] at hpl
    obtain ⟨p, hpmem, rfl⟩ := hpl
    have hp : p.wf = true := hpw p hpmem
    simp only [Pane.wf, Bool.and_eq_true, noWsB, List.all_eq_true,
      decide_eq_true_eq, Bool.not_eq_true'] at hp
    obtain ⟨⟨⟨⟨⟨ht, hpa⟩, hcm⟩, _⟩, _⟩, _⟩ := hp
    rcases paneLineBody_chars hc with h' | h' | h' | h' | h' | h' | h' | h'
    · exact (by decide : ∀ c ∈ pTag, rustIsWs c = true → c = ' ') c h' hcw
    · exact absurd hcw (by simp [natChars_no_ws _ c h'])
    · exact absurd hcw (by simp [ht c h'])
    · exact absurd hcw (by simp [hpa c h'])
    · exact absurd hcw (by simp [hcm c h'])
    · exact absurd hcw (by simp [natChars_no_ws _ c h'])
    · exact absurd hcw (by simp [natChars_no_ws _ c h'])
    · exact (by decide : ∀ c ∈ ([' ', '1', '0'] : Chars),
        rustIsWs c = true → c = ' ') c h' hcw

/-- **Codec round-trip** for whitespace-free sessions: parsing the
serializer's output recovers the session exactly. -/
theorem parse_serialize_id (ws : List Window) (h : wfSession ws = true) :
    parseContent (serializeSession ws) = ws := by
  have hlines : ∀ l ∈ (ws.map (fun w => windowLineBody w :: w.panes.map paneLineBody)).flatten,
      '\n' ∉ l ∧ l.getLast? ≠ some '\r' := by
    intro l hl
    have key := serLine_ws_is_space h hl
    constructor
    · intro hmem
      cases key '\n' hmem (by decide)
    · intro hlast
      rcases List.getLast?_eq_some_iff.mp hlast with ⟨ys, hys⟩
      have hmem : '\r' ∈ l := by rw [hys]; simp
      cases key '\r' hmem (by decide)
  rw [serializeSession_eq_joinNl, parseContent, serLines,
    rustLines_joinNl _ hlines, parseLoop_session ws h]
  simp [optWindowList]
/-! ## Restore-trace membership lemmas -/

theorem filter_none {α : Type} (P : α → Bool) (l : List α)
    (h : ∀ a ∈ l, P a = false) : l.filter P = [] :=
  List.filter_eq_nil_iff.mpr (fun a ha => by simp [h a ha])

theorem mem_restWindowCmds {c : TmuxCmd} {sess : Chars} {w : Window}
    (hc : c ∈ restWindowCmds sess w) :
    c = .newWindow (sess ++ ':' :: natChars w.index) w.name
      ∨ (∃ p ∈ w.panes, c = .splitWindow (sess ++ ':' :: natChars w.index) p.current_path)
      ∨ c = .selectLayout (sess ++ ':' :: natChars w.index) w.layout
      ∨ (∃ p ∈ w.panes, p.active = true
          ∧ c = .selectPane ((sess ++ ':' :: natChars w.index) ++ '.' :: natChars p.index)) := by
  rw [restWindowCmds] at hc
  rcases List.mem_cons.mp hc with rfl | hc
  · left; rfl
  rcases List.mem_append.mp hc with hc | hc
  · rcases List.mem_append.mp hc with hc | hc
    · rcases List.mem_map.mp hc with ⟨p, hp, rfl⟩
      right; left
      exact ⟨p, List.mem_of_mem_drop hp, rfl⟩
    · rcases List.mem_singleton.mp hc with rfl
      right; right; left; rfl
  · rcases List.mem_filterMap.mp hc with ⟨p, hp, hite⟩
    by_cases hact : p.active = true
    · rw [if_pos hact] at hite
      injection hite with hite
      right; right; right
      exact ⟨p, hp, hact, hite.symm⟩
    · rw [if_neg hact] at hite
      cases hite

theorem mem_restoreTrace {c : TmuxCmd} {fw : Window} {rest : List Window} {it : Bool}
    (hc : c ∈ restoreTrace (fw :: rest) it) :
    c = .newSessionDetached fw.session_name fw.name
      ∨ (∃ p ∈ fw.panes, c = .splitWindow (fw.session_name ++ ':' :: ['0']) p.current_path)
      ∨ c = .selectLayout (fw.session_name ++ ':' :: ['0']) fw.layout
      ∨ (∃ w ∈ rest, c ∈ restWindowCmds fw.session_name w)
      ∨ (∃ aw, (fw :: rest).find? (·.active) = some aw
          ∧ c = .selectWindow (fw.session_name ++ ':' :: natChars aw.index))
      ∨ c = .switchClient fw.session_name
      ∨ c = .attachSession fw.session_name := by
  rw [restoreTrace] at hc
  rcases List.mem_cons.mp hc with rfl | hc
  · left; rfl
  rcases List.mem_append.mp hc with hc | hc
  swap
  · rcases List.mem_singleton.mp hc with rfl
    rcases it
    · right; right; right; right; right; right; rfl
    · right; right; right; right; right; left; rfl
  rcases List.mem_append.mp hc with hc | hc
  swap
  · rcases hfind : (fw :: rest).find? (·.active) with _ | aw <;> rw [hfind] at hc
    · cases hc
    · rcases List.mem_singleton.mp hc with rfl
      right; right; right; right; left
      exact ⟨aw, hfind, rfl⟩
  rcases List.mem_append.mp hc with hc | hc
  swap
  · rcases List.mem_flatten.mp hc with ⟨l, hl, hcl⟩
    rcases List.mem_map.mp hl with ⟨w, hw, rfl⟩
    right; right; right; left
    exact ⟨w, hw, hcl⟩
  rcases List.mem_append.mp hc with hc | hc
  · rcases List.mem_map.mp hc with ⟨p, hp, rfl⟩
    right; left
    exact ⟨p, List.mem_of_mem_drop hp, rfl⟩
  · rcases List.mem_singleton.mp hc with rfl
    right; right; left; rfl

theorem restWindowCmds_no_purge {c : TmuxCmd} {sess : Chars} {w : Window}
    (hc : c ∈ restWindowCmds sess w) : isPurgeCmd c = false := by
  rcases mem_restWindowCmds hc with rfl | ⟨p, _, rfl⟩ | rfl | ⟨p, _, _, rfl⟩ <;> rfl

theorem restoreTrace_no_purge {c : TmuxCmd} {ws : List Window} {it : Bool}
    (hc : c ∈ restoreTrace ws it) : isPurgeCmd c = false := by
  cases ws with
  | nil => cases hc
  | cons fw rest =>
    rcases mem_restoreTrace hc with rfl | ⟨p, _, rfl⟩ | rfl | ⟨w, _, hcw⟩
      | ⟨aw, _, rfl⟩ | rfl | rfl
    · rfl
    · rfl
    · rfl
    · exact restWindowCmds_no_purge hcw
    · rfl
    · rfl
    · rfl

/-! ## `select-window` occurrences in a restore trace -/

theorem filter_selW_restoreTrace (fw : Window) (rest : List Window) (it : Bool) :
    (restoreTrace (fw :: rest) it).filter isSelWindow
      = (match (fw :: rest).find? (·.active) with
         | some aw => [TmuxCmd.selectWindow (fw.session_name ++ ':' :: natChars aw.index)]
         | none => []) := by
  rw [restoreTrace]
  rcases hfind : (fw :: rest).find? (·.active) with _ | aw <;> rw [hfind] <;>
    (repeat rw [List.filter_append]
     rw [List.filter_cons, if_neg (by simp [isSelWindow]),
       filter_none _ _ (fun c hc => by
         rcases List.mem_map.mp hc with ⟨p, _, rfl⟩; rfl),
       filter_none _ _ (fun c hc => by
         rcases List.mem_singleton.mp hc with rfl; rfl),
       filter_none _ _ (fun c hc => by
         rcases List.mem_flatten.mp hc with ⟨l, hl, hcl⟩
         rcases List.mem_map.mp hl with ⟨w, _, rfl⟩
         rcases mem_restWindowCmds hcl with rfl | ⟨p, _, rfl⟩ | rfl | ⟨p, _, _, rfl⟩ <;> rfl),
       filter_none isSelWindow [if it = true then TmuxCmd.switchClient fw.session_name
           else TmuxCmd.attachSession fw.session_name] (fun c hc => by
         rcases List.mem_singleton.mp hc with rfl
         rcases it <;> rfl)]
     simp [List.filter_cons, isSelWindow])

/-! ## Snapshot lemmas -/

theorem get_panes_session (env : SaveEnv) (w : Window) :
    (Window.get_panes env w).session_name = w.session_name
      ∧ (Window.get_panes env w).index = w.index := by
  rw [Window.get_panes]
  split <;> simp

theorem parsePaneInfo_congr (env : SaveEnv) {w w' : Window}
    (h1 : w.session_name = w'.session_name) (h2 : w.index = w'.index) :
    parsePaneInfo env w = parsePaneInfo env w' := by
  funext l
  simp only [parsePaneInfo, h1, h2]

theorem saveWindows_mem {env : SaveEnv} : ∀ {ls : List Chars} {ws : List Window},
    saveWindows env ls = .ok ws → ∀ w ∈ ws, ∃ w0, w = Window.get_panes env w0 := by
  intro ls
  induction ls with
  | nil =>
    intro ws h w hw
    rw [saveWindows] at h
    injection h with h
    subst h
    cases hw
  | cons l ls ih =>
    intro ws h w hw
    rw [saveWindows] at h
    rcases hline : Window.from_format_str l with _ | w0 <;> rw [hline] at h
    · cases h
    · rcases hrec : saveWindows env ls with e | rest <;> rw [hrec] at h
      · cases h
      · simp only [Except.map] at h
        injection h with h
        subst h
        rcases List.mem_cons.mp hw with rfl | hw'
        · exact ⟨w0, rfl⟩
        · exact ih hrec w hw'

/-! ## Hexadecimal digest shape -/

theorem hash8Bytes_length (v : Hash8) : (hash8Bytes v).length = 32 := by
  simp [hash8Bytes]

theorem sha256_length (msg : List Nat) : (sha256 msg).length = 32 :=
  hash8Bytes_length _

theorem bytesToHex_length (bs : List Nat) : (bytesToHex bs).length = 2 * bs.length := by
  induction bs with
  | nil => rfl
  | cons b bs ih =>
    rw [bytesToHex, List.map_cons, List.flatten_cons, List.length_append, ← bytesToHex, ih]
    simp
    omega

theorem hexDigitCh_mem (n : Nat) : hexDigitCh n ∈ hexAlphabet := by
  rw [hexDigitCh, List.getD_eq_getElem?_getD]
  rcases hg : hexAlphabet[n]? with _ | c
  · simp [hg]
    decide
  · simp [hg]
    exact List.getElem?_mem hg

theorem bytesToHex_mem {c : Char} {bs : List Nat} (hc : c ∈ bytesToHex bs) :
    c ∈ hexAlphabet := by
  rw [bytesToHex, List.mem_flatten] at hc
  obtain ⟨l, hl, hcl⟩ := hc
  rcases List.mem_map.mp hl with ⟨b, _, rfl⟩
  rcases List.mem_cons.mp hcl with rfl | hcl'
  · exact hexDigitCh_mem _
  · rcases List.mem_singleton.mp hcl' with rfl
    exact hexDigitCh_mem _

/-! ## Failing numeric parses -/

theorem parseU32_none {s : Chars} (hne : s ≠ []) (hh : s.head? ≠ some '+')
    (hd : ∀ c ∈ s, c.isDigit = false) : parseU32 s = none := by
  rcases s with _ | ⟨c, cs⟩
  · exact absurd rfl hne
  have hc : ¬ c = '+' := fun h => hh (by simp [h])
  have hall : (c :: cs).all Char.isDigit = false := by
    simp only [List.all_cons, Bool.and_eq_false_iff]
    left
    exact hd c (by simp)
  rw [parseU32]
  rw [if_neg (show ¬(c :: cs) = [] by simp), hall]
  · simp
  · intro rest hr
    injection hr with h1 h2
    exact absurd h1 hc

/-! # Claims -/

/-- C1, counterexample: a session with a space inside a pane title
contains no `'|'` anywhere, yet parsing the serialized text does not give
the session back (the space-separated pane record splits inside the
title). -/
theorem c1_counterexample :
    pipeFree exSpaceTitle = true
      ∧ parseContent (serializeSession exSpaceTitle) ≠ exSpaceTitle := by
  decide

/-- C1, amended: for every session whose string fields contain no
whitespace, whose session names contain no `':'`, whose window names
neither start with `'('` nor end with `')'`, whose layouts are non-empty,
and whose numeric fields fit in `u32`, parsing the serializer's output
yields the session back, equality taken over all structural fields. -/
theorem c1_round_trip (ws : List Window) (h : wfSession ws = true) :
    parseContent (serializeSession ws) = ws :=
  parse_serialize_id ws h

/-- C1, witness: the round-trip at a concrete one-window, one-pane
session. -/
theorem c1_round_trip_witness :
    wfSession exSession = true
      ∧ parseContent (serializeSession exSession) = exSession :=
  ⟨by decide, c1_round_trip exSession (by decide)⟩

/-- C2, counterexample: with an existing window of index 2 recorded for
the target session, a non-dry-run restore that succeeds issues neither
`list-windows` nor any `kill-window`. -/
theorem c2_counterexample :
    (restoreRun [("s".data, 2)] true exContent false false).1.filter isPurgeCmd = []
      ∧ (restoreRun [("s".data, 2)] true exContent false false).2 = none := by
  decide

/-- C2, amended: no restore invocation ever enumerates the live windows of
the target session or issues a `kill-window`; it creates a fresh detached
session instead — so in particular window index 0 is never killed. -/
theorem c2_no_purge (existing : List (Chars × Nat)) (fe : Bool) (content : Chars)
    (dr it : Bool) :
    (restoreRun existing fe content dr it).1.filter isPurgeCmd = [] := by
  cases fe
  · rfl
  · by_cases hws : parseContent content = []
    · simp [restoreRun, hws]
    · by_cases hdr : dr
      · simp [restoreRun, hws, hdr]
      · simp only [restoreRun, hws, hdr, Bool.not_true, if_false, if_neg hws]
        exact filter_none _ _ (fun c hc => restoreTrace_no_purge hc)

/-- C5, counterexample: in the default verb with no existing session, an
inner-restore error other than the missing-save-file one (here the
empty-save-file error) is swallowed too: the run still switches,
snapshots and succeeds. -/
theorem c5_counterexample :
    (restoreRun [] true [] false false).2 = some RestoreError.noWindowsFound
      ∧ (defaultVerb false [] true [] false).2 = true
      ∧ Step.switchTo ∈ (defaultVerb false [] true [] false).1
      ∧ Step.save ∈ (defaultVerb false [] true [] false).1 := by
  decide

/-- C5, amended: in the default verb, when the session does not exist,
every outcome of the inner restore is discarded (`let _ = ...`):
execution always continues with the switch and the snapshot and the verb
succeeds. -/
theorem c5_swallow_all (existing : List (Chars × Nat)) (fe : Bool) (content : Chars)
    (it : Bool) :
    (defaultVerb false existing fe content it).2 = true
      ∧ Step.switchTo ∈ (defaultVerb false existing fe content it).1
      ∧ Step.save ∈ (defaultVerb false existing fe content it).1 := by
  refine ⟨?_, ?_, ?_⟩ <;> simp [defaultVerb]

/-- C7: when the save file does not exist, the restore fails with the
no-saved-session error having issued zero multiplexer commands, and the
restore verb exits unsuccessfully. -/
theorem c7_no_file_no_cmds (existing : List (Chars × Nat)) (content : Chars)
    (dr it sw : Bool) :
    restoreRun existing false content dr it = ([], some RestoreError.noSavedSession)
      ∧ restoreVerbOk existing false content dr it sw = false :=
  ⟨rfl, rfl⟩

/-- C3: for every resolved directory string with an extractable final
component, the save path is
`<HOME>/.tmux/tici/session_<H>_<basename>.tmux` where `H` is exactly the
first 16 characters of the lowercase hexadecimal SHA-256 digest of the
directory string — 16 characters drawn from `0123456789abcdef` — and the
path is a function of the directory (one file per directory). -/
theorem c3_save_path (home dir base : Chars) (h : fileNameOf dir = some base) :
    ∃ h16, get_session_info home dir
        = some (dir, home ++ "/.tmux/tici/".data
            ++ ("session_".data ++ h16 ++ '_' :: base ++ ".tmux".data), base)
      ∧ h16 = (bytesToHex (sha256 (utf8Bytes dir))).take 16
      ∧ h16.length = 16
      ∧ ∀ c ∈ h16, c ∈ hexAlphabet := by
  refine ⟨create_hash dir, ?_, rfl, ?_, ?_⟩
  · rw [get_session_info, h]
  · rw [create_hash, List.length_take, bytesToHex_length, sha256_length]
    decide
  · intro c hc
    rw [create_hash] at hc
    exact bytesToHex_mem (List.mem_of_mem_take hc)

/-- C3, witness: the save path for the directory `/h/proj` under
`HOME=/h`. -/
theorem c3_save_path_witness :
    ∃ h16, get_session_info "/h".data "/h/proj".data
        = some ("/h/proj".data, "/h".data ++ "/.tmux/tici/".data
            ++ ("session_".data ++ h16 ++ '_' :: "proj".data ++ ".tmux".data),
            "proj".data)
      ∧ h16 = (bytesToHex (sha256 (utf8Bytes "/h/proj".data))).take 16
      ∧ h16.length = 16
      ∧ ∀ c ∈ h16, c ∈ hexAlphabet :=
  c3_save_path "/h".data "/h/proj".data "proj".data (by decide)

/-- C4, counterexample: a window record missing its layout field is
silently dropped (the parse reports no error at all), and a pane record
whose index does not parse is kept with index 0 rather than aborted. -/
theorem c4_counterexample :
    parseContent exMalformed
        = [{ session_name := "s".data, index := 1, name := "m".data, active := true,
             layout := "L".data,
             panes := [{ index := 0, title := "t".data, current_path := "p".data,
                         active := true, current_command := "c".data, pid := 5,
                         history_size := 7 }] }]
      ∧ (restoreRun [] true exMalformed false false).2 = none := by
  decide

/-- C4, amended: the restore parser never reports a malformed-record
error — its only parse error is the empty-parse one — and a pane record
whose index field is non-numeric is kept with the index defaulted to 0
(like pid and history), not aborted. -/
theorem c4_lenient (bad : Chars) (hne : bad ≠ [])
    (hprop : ∀ c ∈ bad, c.isDigit = false ∧ c.isWhitespace = false ∧ c ≠ '+') :
    (∀ (existing : List (Chars × Nat)) (content : Chars) (dr it : Bool),
        (restoreRun existing true content dr it).2 = none
          ∨ (restoreRun existing true content dr it).2
              = some RestoreError.noWindowsFound)
      ∧ parsePaneData (bad ++ ' ' :: "1 t p c 5 7".data)
          = some { index := 0, title := "t".data, current_path := "p".data,
                   active := true, current_command := "c".data, pid := 5,
                   history_size := 7 } := by
  constructor
  · intro existing content dr it
    by_cases hws : parseContent content = [] <;> by_cases hdr : dr <;>
      simp [restoreRun, hws, hdr]
  · have hh : bad.head? ≠ some '+' := by
      rcases bad with _ | ⟨c, cs⟩
      · exact absurd rfl hne
      · intro heq
        injection heq with h1
        exact (hprop c (by simp)).2.2 h1
    have hnum : parseU32 bad = none :=
      parseU32_none hne hh (fun c hc => (hprop c hc).1)
    have hnospace : ' ' ∉ bad := fun hm => by
      have := (hprop ' ' hm).2.1
      simp at this
    have hsplit : splitnSp 7 (bad ++ ' ' :: "1 t p c 5 7".data)
        = [bad, "1".data, "t".data, "p".data, "c".data, "5".data, "7".data] := by
      rw [splitnSp_step 5 bad hnospace]
      rfl
    rw [parsePaneData, hsplit]
    simp [hnum]
    decide

/-- C4, witness: the lenient behaviour at the concrete non-numeric pane
index `x`. -/
theorem c4_lenient_witness :
    (∀ (existing : List (Chars × Nat)) (content : Chars) (dr it : Bool),
        (restoreRun existing true content dr it).2 = none
          ∨ (restoreRun existing true content dr it).2
              = some RestoreError.noWindowsFound)
      ∧ parsePaneData ("x".data ++ ' ' :: "1 t p c 5 7".data)
          = some { index := 0, title := "t".data, current_path := "p".data,
                   active := true, current_command := "c".data, pid := 5,
                   history_size := 7 } :=
  c4_lenient "x".data (by decide) (by decide)

/-- C6, counterexample: directories whose basename contains `'.'` or
`':'` are accepted, and the session name is that basename verbatim — no
`InvalidSessionName` rejection exists. -/
theorem c6_counterexample :
    (get_session_info "/h".data "/home/a.b".data).map (fun t => t.2.2)
        = some "a.b".data
      ∧ '.' ∈ "a.b".data
      ∧ (get_session_info "/h".data "/x/a:b".data).map (fun t => t.2.2)
          = some "a:b".data
      ∧ ':' ∈ "a:b".data := by
  decide

/-- C6, amended: session-identity construction fails only when the final
path component cannot be extracted (root or `..`-terminated paths);
whenever a basename exists the session name equals it verbatim, with no
check for multiplexer-reserved characters. -/
theorem c6_verbatim_basename :
    (∀ (home dir base : Chars), fileNameOf dir = some base →
        (get_session_info home dir).map (fun t => t.2.2) = some base)
      ∧ (∀ (home dir : Chars), fileNameOf dir = none →
          get_session_info home dir = none) := by
  constructor
  · intro home dir base h
    rw [get_session_info, h]
    rfl
  · intro home dir h
    rw [get_session_info, h]

/-- C6, witness: a basename containing both reserved characters is
returned verbatim. -/
theorem c6_verbatim_basename_witness :
    (get_session_info "/h".data "/home/a:b.c".data).map (fun t => t.2.2)
      = some "a:b.c".data :=
  c6_verbatim_basename.1 "/h".data "/home/a:b.c".data "a:b.c".data (by decide)

theorem colon_target_pre (s rest : Chars) :
    (s ++ [':']).isPrefixOf (s ++ ':' :: rest) = true := by
  rw [show s ++ ':' :: rest = (s ++ [':']) ++ rest by simp]
  exact isPrefixOf_append_self _ _

/-- C8: in every restore, `select-window` is issued at most once, and any
issued `select-window` targets a parsed window whose active flag is true
(hence none is issued when no parsed window is active). -/
theorem c8_active_selection (existing : List (Chars × Nat)) (fe : Bool)
    (content : Chars) (dr it : Bool) :
    ((restoreRun existing fe content dr it).1.filter isSelWindow).length ≤ 1
      ∧ ∀ c ∈ (restoreRun existing fe content dr it).1, isSelWindow c = true →
          ∃ fw rest aw, parseContent content = fw :: rest ∧ aw ∈ fw :: rest
            ∧ aw.active = true
            ∧ c = TmuxCmd.selectWindow (fw.session_name ++ ':' :: natChars aw.index) := by
  cases fe
  · constructor
    · simp [restoreRun]
    · intro c hc
      simp [restoreRun] at hc
  · by_cases hws : parseContent content = []
    · refine ⟨?_, ?_⟩ <;> simp [restoreRun, hws]
    · by_cases hdr : dr
      · refine ⟨?_, ?_⟩ <;> simp [restoreRun, hws, hdr]
      · rcases hpc : parseContent content with _ | ⟨fw, rest⟩
        · exact absurd hpc hws
        have htr : (restoreRun existing true content dr it).1
            = restoreTrace (fw :: rest) it := by
          simp [restoreRun, hpc, hdr]
        constructor
        · rw [htr, filter_selW_restoreTrace]
          rcases hfind : (fw :: rest).find? (·.active) with _ | aw <;>
            rw [hfind] <;> simp
        · intro c hc hsel
          rw [htr] at hc
          rcases mem_restoreTrace hc with rfl | ⟨p, _, rfl⟩ | rfl | ⟨w, _, hcw⟩
            | ⟨aw, hfind, rfl⟩ | rfl | rfl
          · cases hsel
          · cases hsel
          · cases hsel
          · rcases mem_restWindowCmds hcw with rfl | ⟨p, _, rfl⟩ | rfl | ⟨p, _, _, rfl⟩ <;>
              cases hsel
          · exact ⟨fw, rest, aw, rfl, List.mem_of_find?_eq_some hfind,
              by simpa using List.find?_some hfind, rfl⟩
          · cases hsel
          · cases hsel

/-- C8, witness: the single `select-window` issued when restoring the
concrete save file, for its active window. -/
theorem c8_active_selection_witness :
    ∃ fw rest aw, parseContent exContent = fw :: rest ∧ aw ∈ fw :: rest
      ∧ aw.active = true
      ∧ TmuxCmd.selectWindow "s:0".data
          = TmuxCmd.selectWindow (fw.session_name ++ ':' :: natChars aw.index) :=
  (c8_active_selection [] true exContent false false).2
    (TmuxCmd.selectWindow "s:0".data) (by decide) (by decide)

/-- C9, counterexample: when the multiplexer reports no panes for a
window, the snapshot still completes successfully and records that window
with zero panes. -/
theorem c9_counterexample :
    saveRun exEnvNoPanes = .ok ([exWinBare], serializeSession [exWinBare])
      ∧ exWinBare.panes = [] :=
  ⟨rfl, rfl⟩

/-- C9, amended: after a successful snapshot, every window for which the
multiplexer reported a successful `list-panes` containing at least one
well-formed, captured pane record has at least one pane. -/
theorem c9_panes_nonempty (env : SaveEnv) (ws : List Window) (text : Chars)
    (h : saveRun env = .ok (ws, text)) :
    ∀ w ∈ ws, envHasPane env w → w.panes ≠ [] := by
  rw [saveRun] at h
  rcases hlw : env.listWindowsOk with _ | _ <;> rw [hlw] at h
  · cases h
  · rcases hsw : saveWindows env (rustLines env.listWindowsOut) with e | ws0 <;>
      rw [hsw] at h
    · cases h
    · simp only [Bool.not_true, if_false, Except.map] at h
      injection h with h
      injection h with h1 h2
      subst h1
      intro w hw henv
      obtain ⟨w0, rfl⟩ := saveWindows_mem hsw w hw
      obtain ⟨hsn, hidx⟩ := get_panes_session env w0
      have htarget : paneQueryTarget (Window.get_panes env w0) = paneQueryTarget w0 := by
        rw [paneQueryTarget, paneQueryTarget, hsn, hidx]
      rw [envHasPane, htarget] at henv
      obtain ⟨hok, l, hl, hsome⟩ := henv
      rw [parsePaneInfo_congr env hsn hidx] at hsome
      have hpanes : (Window.get_panes env w0).panes
          = (rustLines (env.listPanes (paneQueryTarget w0)).2).filterMap
              (parsePaneInfo env w0) := by
        rw [Window.get_panes]
        rw [if_neg (by simp [hok])]
      intro hnil
      rw [hpanes, List.filterMap_eq_nil_iff] at hnil
      rw [hnil l hl] at hsome
      cases hsome

/-- C9, witness: a window snapshotted from a multiplexer that reports one
valid pane ends up with a non-empty pane list. -/
theorem c9_panes_nonempty_witness :
    ({ session_name := "s".data, index := 0, name := "n".data, active := true,
       layout := "L".data,
       panes := [{ index := 0, title := "t".data, current_path := "/p".data,
                   active := true, current_command := "c".data, pid := 5,
                   history_size := 7 }] } : Window).panes ≠ [] :=
  c9_panes_nonempty exEnv exSession (serializeSession exSession) (by rfl)
    _ (by decide)
    ⟨rfl, "pane\ts\t0\t1\t:-\t0\tt\t:/p\t1\tc\t5\t7".data, by decide, rfl⟩

/-- C10: in every non-dry-run restore with a parseable save file, the
command trace begins by creating a detached session named by the
session-name field of the file's first window record, and every issued
command addresses that session. -/
theorem c10_session_from_file (existing : List (Chars × Nat)) (content : Chars)
    (it : Bool) (fw : Window) (rest : List Window)
    (h : parseContent content = fw :: rest) :
    (restoreRun existing true content false it).1.head?
        = some (TmuxCmd.newSessionDetached fw.session_name fw.name)
      ∧ ∀ c ∈ (restoreRun existing true content false it).1,
          addressesSession fw.session_name c = true := by
  have htr : (restoreRun existing true content false it).1
      = restoreTrace (fw :: rest) it := by
    simp [restoreRun, h]
  rw [htr]
  constructor
  · rw [restoreTrace]
    rcases (fw :: rest).find? (·.active) with _ | aw <;>
      simp [List.cons_append]
  · intro c hc
    rcases mem_restoreTrace hc with rfl | ⟨p, _, rfl⟩ | rfl | ⟨w, _, hcw⟩
      | ⟨aw, _, rfl⟩ | rfl | rfl
    · simp [addressesSession]
    · simp [addressesSession, colon_target_pre]
    · simp [addressesSession, colon_target_pre]
    · rcases mem_restWindowCmds hcw with rfl | ⟨p, _, rfl⟩ | rfl | ⟨p, _, _, rfl⟩ <;>
        simp [addressesSession, colon_target_pre, List.append_assoc]
    · simp [addressesSession, colon_target_pre]
    · simp [addressesSession]
    · simp [addressesSession]

/-- C10, witness: restoring the concrete save file creates the detached
session `s` named from the file, and every command addresses `s`. -/
theorem c10_session_from_file_witness :
    (restoreRun [] true exContent false false).1.head?
        = some (TmuxCmd.newSessionDetached "s".data "n".data)
      ∧ ∀ c ∈ (restoreRun [] true exContent false false).1,
          addressesSession "s".data c = true :=
  c10_session_from_file [] exContent false
    { session_name := "s".data, index := 0, name := "n".data, active := true,
      layout := "L".data,
      panes := [{ index := 0, title := "t".data, current_path := "/p".data,
                  active := true, current_command := "c".data, pid := 5,
                  history_size := 7 }] }
    [] (by decide)

end Tici

